import Mathlib

/-!
Verification of the path-addressed hierarchical node store implemented in
`src/outline-tools.ts` (class `OutlineManager`).  The TypeScript code is
shallowly embedded: JS objects used as string-keyed dictionaries become
association lists, JS object spread becomes an explicit merge, the four
type-keyed mappings become a four-field structure, and the `async`
operations become pure state-passing functions.  String manipulation
(`split`, `startsWith`, `substring`, `parseInt`) is modelled by
structurally recursive functions with JS semantics so that every
definition evaluates by kernel reduction.
-/

namespace Outline

/-- Untyped JS values stored in `metadata` bags and patch objects.  The
repository only ever stores numbers and strings in these positions. -/
inductive JVal where
  | num (n : Int)
  | str (s : String)
deriving DecidableEq, Repr

/-- A JS object used as a record: an association list of fields in
insertion order, keys unique. -/
abbrev JRec := List (String × JVal)

/-- Does the record have the key?  (`k in obj`). -/
def rhas : JRec → String → Bool
  | [], _ => false
  | e :: t, k => e.1 == k || rhas t k

/-- Field access `obj[k]`, `undefined` as `none`. -/
def rlookup : JRec → String → Option JVal
  | [], _ => none
  | e :: t, k => if e.1 == k then some e.2 else rlookup t k

/-- JS object spread `\x7b...a, ...b\x7d`: the keys of `a` in order with values
overridden by `b` where present, then the keys of `b` not in `a`. -/
def rmerge (a b : JRec) : JRec :=
  a.map (fun e => match rlookup b e.1 with
    | some v => (e.1, v)
    | none => e)
  ++ b.filter (fun e => !(rhas a e.1))

/-! ### JS string operations, modelled structurally -/

/-- Auxiliary for `jsSplit`: accumulates the current segment (reversed). -/
def jsSplitAux (sep : Char) : List Char → List Char → List String
  | [], acc => [String.mk acc.reverse]
  | c :: rest, acc =>
    if c == sep then String.mk acc.reverse :: jsSplitAux sep rest []
    else jsSplitAux sep rest (c :: acc)

/-- JS `s.split(sep)` for a one-character separator; `"".split(sep)` is
`[""]` and leading/trailing separators produce empty segments, as in JS. -/
def jsSplit (sep : Char) (s : String) : List String :=
  jsSplitAux sep s.data []

/-- Auxiliary for `strStarts`. -/
def strStartsAux : List Char → List Char → Bool
  | _, [] => true
  | [], _ :: _ => false
  | c :: cs, d :: ds => c == d && strStartsAux cs ds

/-- JS `s.startsWith(pre)`. -/
def strStarts (s pre : String) : Bool :=
  strStartsAux s.data pre.data

/-- JS `s.substring(1)` for the ASCII strings used here. -/
def dropFirst (s : String) : String :=
  String.mk (s.data.drop 1)

/-- Numeric value of a digit string. -/
def digitsVal (cs : List Char) : Nat :=
  cs.foldl (fun a c => a * 10 + (c.toNat - 48)) 0

/-- JS `parseInt(s, 10)`: skip leading whitespace, optional sign, longest
digit run; `NaN` (here `none`) if there is no digit. -/
def jsParseInt (s : String) : Option Int :=
  let cs := s.data.dropWhile (fun c => c.isWhitespace)
  let signed : Int × List Char :=
    match cs with
    | c :: t => if c == '-' then (-1, t) else if c == '+' then (1, t) else (1, cs)
    | [] => (1, [])
  let ds := signed.2.takeWhile (fun c => c.isDigit)
  if ds.isEmpty then none else some (signed.1 * (digitsVal ds : Int))

/-! ### The node model (`OutlineNode` union of `outline-tools.ts`) -/

/-- The four node kinds. -/
inductive NodeType where
  | volume
  | act
  | plot_point
  | chapter
deriving DecidableEq, Repr

/-- A stored node.  `index` is present exactly on chapter nodes (the TS
interfaces give `ChapterNode` a mandatory numeric `index` and the other
variants none); `metadata` collects all remaining fields, with the TS
optional/absent metadata object represented by `[]`. -/
structure OutlineNode where
  type : NodeType
  title : String
  index : Option Int
  metadata : JRec
deriving DecidableEq, Repr

/-- One of the four path-keyed dictionaries. -/
abbrev NodeMap := List (String × OutlineNode)

/-- Dictionary read `dict[path]`. -/
def mlookup : NodeMap → String → Option OutlineNode
  | [], _ => none
  | e :: t, k => if e.1 == k then some e.2 else mlookup t k

/-- Dictionary write `dict[path] = node`: overwrite in place if the key
exists, else append (JS insertion order). -/
def minsert : NodeMap → String → OutlineNode → NodeMap
  | [], k, v => [(k, v)]
  | e :: t, k, v => if e.1 == k then (k, v) :: t else e :: minsert t k v

/-- Dictionary delete `delete dict[path]`. -/
def mdelete (m : NodeMap) (k : String) : NodeMap :=
  m.filter (fun e => !(e.1 == k))

/-- The keys of a dictionary. -/
def keysOf (m : NodeMap) : List String :=
  m.map (fun e => e.1)

/-- The whole document: four mappings, one per type (`OutlineData`). -/
structure OutlineData where
  volumes : NodeMap
  acts : NodeMap
  plotPoints : NodeMap
  chapters : NodeMap
deriving DecidableEq, Repr

/-- The empty document. -/
def emptyData : OutlineData := ⟨[], [], [], []⟩

/-- `getDictionaryByType`. -/
def dictOf (d : OutlineData) : NodeType → NodeMap
  | .volume => d.volumes
  | .act => d.acts
  | .plot_point => d.plotPoints
  | .chapter => d.chapters

/-- Write back the mapping selected by type. -/
def setDict (d : OutlineData) : NodeType → NodeMap → OutlineData
  | .volume, m => { d with volumes := m }
  | .act, m => { d with acts := m }
  | .plot_point, m => { d with plotPoints := m }
  | .chapter, m => { d with chapters := m }

/-! ### Path grammar -/

/-- `nodePath.split('/').filter(p => p)`: the non-empty segments. -/
def pathParts (p : String) : List String :=
  (jsSplit '/' p).filter (fun s => !(s == ""))

/-- Depth of a path. -/
def pathDepth (p : String) : Nat :=
  (pathParts p).length

/-- `getNodeTypeFromPath`: depth and the first letter of the last
segment classify a path; anything else is invalid (`none`). -/
def getNodeTypeFromPath (nodePath : String) : Option NodeType :=
  let parts := pathParts nodePath
  if parts.length == 1 && strStarts (parts.getD 0 "") "v" then some .volume
  else if parts.length == 2 && strStarts (parts.getD 1 "") "a" then some .act
  else if parts.length == 3 && strStarts (parts.getD 2 "") "p" then some .plot_point
  else if parts.length == 4 && strStarts (parts.getD 3 "") "c" then some .chapter
  else none

/-- `getChildren`: entries of any of the four mappings whose path extends
`parentPath` by exactly one level, in dictionary order. -/
def getChildren (d : OutlineData) (parentPath : String) : List (String × OutlineNode) :=
  let parentDepth := if parentPath == "/" then 0 else pathDepth parentPath
  let pre := if parentPath == "/" then "/" else parentPath ++ "/"
  let pick := fun (m : NodeMap) => m.filter (fun e =>
    strStarts e.1 pre && !(e.1 == parentPath) && pathDepth e.1 == parentDepth + 1)
  pick d.volumes ++ pick d.acts ++ pick d.plotPoints ++ pick d.chapters

/-- The numeric ordinal a child path contributes in `generateNextChildId`:
its last segment must carry the prefix letter and parse as a number
(`childPath.split('/').pop()`, `startsWith(childPrefix)`,
`parseInt(childIdPart.substring(1), 10)` with the `isNaN` guard). -/
def childOrdinal (pfx : Char) (p : String) : Option Int :=
  match (jsSplit '/' p).getLast? with
  | some part =>
    if strStarts part (String.mk [pfx]) then jsParseInt (dropFirst part) else none
  | none => none

/-- `generateNextChildId`: running maximum (clamped below by 0) of the
ordinals of the existing children carrying the prefix, plus one. -/
def generateNextChildId (d : OutlineData) (parentPath : String) (pfx : Char) : Int :=
  (getChildren d parentPath).foldl (fun maxId e =>
    match childOrdinal pfx e.1 with
    | some num => if num > maxId then num else maxId
    | none => maxId) 0
  + 1

/-- `getNode`: classify the path, look it up in the mapping of that type,
return the node with its path attached. -/
def getNode (d : OutlineData) (nodePath : String) : Option (String × OutlineNode) :=
  match getNodeTypeFromPath nodePath with
  | none => none
  | some ty =>
    match mlookup (dictOf d ty) nodePath with
    | none => none
    | some node => some (nodePath, node)

/-! ### CRUD operations.  Each mutating operation is embedded as a
function returning `(result, document, saved)` where `saved` records
whether the success path reached its trailing `saveData()` call. -/

/-- The argument object of `addNode` after the destructuring
`const \x7b type, title, index, metadata, ...restData \x7d = nodeData`. -/
structure AddInput where
  type : NodeType
  title : String
  index : Option Int
  metadata : Option JRec
  rest : JRec
deriving Repr

/-- Parent classification: the implicit root, a typed node path, or an
invalid path. -/
inductive PType where
  | root
  | node (t : NodeType)
  | invalid
deriving DecidableEq, Repr

/-- Child path letter per node type. -/
def childPfxOf : NodeType → Char
  | .volume => 'v'
  | .act => 'a'
  | .plot_point => 'p'
  | .chapter => 'c'

/-- Required parent classification per node type. -/
def expectedParentPType : NodeType → PType
  | .volume => .root
  | .act => .node .volume
  | .plot_point => .node .act
  | .chapter => .node .plot_point

/-- Actual classification of the parent path. -/
def parentPTypeOf (parentPath : String) : PType :=
  if parentPath == "/" then .root
  else match getNodeTypeFromPath parentPath with
    | some t => .node t
    | none => .invalid

/-- Non-chapter child path construction
(`parentPath === '/' ? `/$\x7bchildPrefix\x7d$\x7bnextId\x7d` : ...`). -/
def mkChildPath (parentPath : String) (pfx : Char) (n : Int) : String :=
  if parentPath == "/" then "/" ++ String.mk [pfx] ++ toString n
  else parentPath ++ "/" ++ String.mk [pfx] ++ toString n

/-- `addNode`.  Validation failures return `null` before any mutation;
success inserts the node and saves. -/
def addNodeE (d : OutlineData) (parentPath : String) (inp : AddInput) :
    Option String × OutlineData × Bool :=
  if parentPath != "/" && (getNode d parentPath).isNone then (none, d, false)
  else if parentPTypeOf parentPath != expectedParentPType inp.type then (none, d, false)
  else
    let finish : String → Option String × OutlineData × Bool := fun newNodePath =>
      let newNode : OutlineNode :=
        { type := inp.type
          title := inp.title
          index := if inp.type == NodeType.chapter then inp.index else none
          metadata := rmerge (inp.metadata.getD []) inp.rest }
      (some newNodePath, setDict d inp.type (minsert (dictOf d inp.type) newNodePath newNode), true)
    if inp.type == NodeType.chapter then
      match inp.index with
      | none => (none, d, false)
      | some i =>
        let newNodePath := parentPath ++ "/c" ++ toString i
        if (mlookup d.chapters newNodePath).isSome then (none, d, false)
        else finish newNodePath
    else
      finish (mkChildPath parentPath (childPfxOf inp.type)
        (generateNextChildId d parentPath (childPfxOf inp.type)))

/-- The patch of `updateNode` after the destructuring
`const \x7b type, title, metadata, ...restNewData \x7d = newData`; a supplied
`index` field, being neither `type`, `title` nor `metadata`, stays inside
`rest`.  The TS declared type gives `index` a numeric value. -/
structure UpdatePatch where
  newType : Option NodeType
  newTitle : Option String
  newMetadata : Option JRec
  rest : JRec
deriving Repr

/-- The in-place mutation `updateNode` performs on the found node:
overwrite `title` if supplied; overwrite a chapter's `index` when the
patch's remaining fields carry one (the TS declared type makes that
value numeric); then shallow-merge
`\x7b...metadata, ...newMetadata, ...rest\x7d` into the metadata bag, the
remaining fields (`index` among them) merged last. -/
def updNode (existing : OutlineNode) (patch : UpdatePatch) : OutlineNode :=
  let newIndex : Option Int :=
    match rlookup patch.rest "index" with
    | some (.num n) => some n
    | _ => none
  let n1 := match patch.newTitle with
    | some t => { existing with title := t }
    | none => existing
  let n2 := if n1.type == NodeType.chapter then
      match newIndex with
      | some i => { n1 with index := some i }
      | none => n1
    else n1
  { n2 with
    metadata := rmerge (rmerge n2.metadata (patch.newMetadata.getD [])) patch.rest }

/-- `updateNode`: invalid path or absent node fail; otherwise the node is
mutated by `updNode`, stored back, and the document saved. -/
def updateNodeE (d : OutlineData) (nodePath : String) (patch : UpdatePatch) :
    Bool × OutlineData × Bool :=
  match getNodeTypeFromPath nodePath with
  | none => (false, d, false)
  | some ty =>
    match mlookup (dictOf d ty) nodePath with
    | none => (false, d, false)
    | some existing =>
      (true, setDict d ty (minsert (dictOf d ty) nodePath (updNode existing patch)), true)

/-- `deleteNode`: remove the node from its own mapping, then remove from
all four mappings every entry whose path starts with `nodePath + "/"`. -/
def deleteNodeE (d : OutlineData) (nodePath : String) :
    Bool × OutlineData × Bool :=
  match getNodeTypeFromPath nodePath with
  | none => (false, d, false)
  | some ty =>
    match mlookup (dictOf d ty) nodePath with
    | none => (false, d, false)
    | some _ =>
      let d1 := setDict d ty (mdelete (dictOf d ty) nodePath)
      let pre := nodePath ++ "/"
      let d2 : OutlineData :=
        { volumes := d1.volumes.filter (fun e => !(strStarts e.1 pre))
          acts := d1.acts.filter (fun e => !(strStarts e.1 pre))
          plotPoints := d1.plotPoints.filter (fun e => !(strStarts e.1 pre))
          chapters := d1.chapters.filter (fun e => !(strStarts e.1 pre)) }
      (true, d2, true)

/-! ### Query helpers -/

/-- Sort key of the chapter sort comparator `(a, b) => a.index - b.index`
(every chapter created through the API carries a numeric index). -/
def chapterKey (e : String × OutlineNode) : Int :=
  e.2.index.getD 0

/-- `getAllChaptersSorted`: the chapter entries sorted ascending by
`index`.  JS `Array.prototype.sort` is a stable sort; it is modelled by
the stable `List.insertionSort`. -/
def getAllChaptersSorted (d : OutlineData) : List (String × OutlineNode) :=
  List.insertionSort (fun a b => chapterKey a ≤ chapterKey b) d.chapters

instance instIsTotalChapterLE :
    IsTotal (String × OutlineNode) (fun a b => chapterKey a ≤ chapterKey b) :=
  ⟨fun a b => Int.le_total (chapterKey a) (chapterKey b)⟩

instance instIsTransChapterLE :
    IsTrans (String × OutlineNode) (fun a b => chapterKey a ≤ chapterKey b) :=
  ⟨fun _ _ _ hab hbc => le_trans hab hbc⟩

/-- `getChapterWindowByPath`: require a chapter-shaped path, locate it in
the sorted list, and slice `[pos - w, pos + w]` clamped to the bounds. -/
def getChapterWindowByPath (d : OutlineData) (centerChapterPath : String) (w : Nat) :
    List (String × OutlineNode) :=
  if getNodeTypeFromPath centerChapterPath != some NodeType.chapter then []
  else
    let sorted := getAllChaptersSorted d
    match sorted.findIdx? (fun e => e.1 == centerChapterPath) with
    | none => []
    | some c =>
      let startIndex := c - w
      let endIndex := min (sorted.length - 1) (c + w)
      (sorted.drop startIndex).take (endIndex + 1 - startIndex)

/-! ### The nested-document migration (`convertYAMLToJSON`) -/

/-- A chapter of the nested YAML source after destructuring away
`chapter_name` and `chapter_index`; `extra` holds the remaining fields. -/
structure YamlChapter where
  chapter_name : String
  chapter_index : Int
  extra : JRec
deriving DecidableEq, Repr

/-- A plot point of the nested YAML source. -/
structure YamlPlotPoint where
  plot_point_name : String
  chapters : Option (List YamlChapter)
  extra : JRec
deriving DecidableEq, Repr

/-- An act of the nested YAML source. -/
structure YamlAct where
  act_name : String
  plot_points : Option (List YamlPlotPoint)
  extra : JRec
deriving DecidableEq, Repr

/-- A volume of the nested YAML source. -/
structure YamlVolume where
  volume : String
  acts : Option (List YamlAct)
  extra : JRec
deriving DecidableEq, Repr

/-- The nested document (`yamlData.outline`). -/
abbrev YamlOutline := List YamlVolume

/-- Chapter loop of the migration: paths use the chapter's own declared
`chapter_index`, not the loop position. -/
def migrateChapters (ppPath : String) (chs : List YamlChapter) (st : OutlineData) :
    OutlineData :=
  match chs with
  | [] => st
  | ch :: rest =>
    let chapterPath := ppPath ++ "/c" ++ toString ch.chapter_index
    let node : OutlineNode :=
      { type := .chapter, title := ch.chapter_name, index := some ch.chapter_index,
        metadata := ch.extra }
    let st1 := { st with chapters := minsert st.chapters chapterPath node }
    migrateChapters ppPath rest st1

/-- Plot-point loop of the migration (`k` is the array position). -/
def migratePPs (actPath : String) (k : Nat) (pps : List YamlPlotPoint) (st : OutlineData) :
    OutlineData :=
  match pps with
  | [] => st
  | pp :: rest =>
    let ppPath := actPath ++ "/p" ++ toString (k + 1)
    let node : OutlineNode :=
      { type := .plot_point, title := pp.plot_point_name, index := none,
        metadata := pp.extra }
    let st1 := { st with plotPoints := minsert st.plotPoints ppPath node }
    let st2 := migrateChapters ppPath (pp.chapters.getD []) st1
    migratePPs actPath (k + 1) rest st2

/-- Act loop of the migration (`j` is the array position). -/
def migrateActs (volumePath : String) (j : Nat) (acts : List YamlAct) (st : OutlineData) :
    OutlineData :=
  match acts with
  | [] => st
  | a :: rest =>
    let actPath := volumePath ++ "/a" ++ toString (j + 1)
    let node : OutlineNode :=
      { type := .act, title := a.act_name, index := none, metadata := a.extra }
    let st1 := { st with acts := minsert st.acts actPath node }
    let st2 := migratePPs actPath 0 (a.plot_points.getD []) st1
    migrateActs volumePath (j + 1) rest st2

/-- Volume loop of the migration (`i` is the array position). -/
def migrateVolumes (i : Nat) (vols : List YamlVolume) (st : OutlineData) : OutlineData :=
  match vols with
  | [] => st
  | v :: rest =>
    let volumePath := "/v" ++ toString (i + 1)
    let node : OutlineNode :=
      { type := .volume, title := v.volume, index := none, metadata := v.extra }
    let st1 := { st with volumes := minsert st.volumes volumePath node }
    let st2 := migrateActs volumePath 0 (v.acts.getD []) st1
    migrateVolumes (i + 1) rest st2

/-- The full flattening transform, starting from the reset document. -/
def migrateData (y : YamlOutline) : OutlineData :=
  migrateVolumes 0 y emptyData

/-- The try-block of `convertYAMLToJSON`: a failed read/parse raises
before the reset; a failed final save raises with the migrated document
already in memory. -/
def convertBody (src : Option YamlOutline) (saveOk : Bool) (d : OutlineData) :
    Except OutlineData (Bool × OutlineData) :=
  match src with
  | none => .error d
  | some y =>
    let d1 := migrateData y
    if saveOk then .ok (true, d1) else .error d1

/-- `convertYAMLToJSON`: the surrounding catch turns every raise from the
try-block, a failed save included, into a normal `false` return. -/
def convertYAMLToJSONOp (src : Option YamlOutline) (saveOk : Bool) (d : OutlineData) :
    Bool × OutlineData :=
  match convertBody src saveOk d with
  | .ok r => r
  | .error st => (false, st)

/-! ### Persistence effects -/

/-- Outcome of reading the backing JSON file in `loadData`: a parsed
document (its four collections individually optional), a missing file
(`ENOENT`), or any other read/parse failure. -/
inductive LoadSrc where
  | ok (volumes acts plotPoints chapters : Option NodeMap)
  | missing
  | otherError

/-- `loadData`: a parsed file is normalised with `|| \x7b\x7d` defaults; a
missing file initialises the empty document and saves it (a raise from
that save propagates); any other failure is swallowed and the empty
document used. -/
def loadDataOp (src : LoadSrc) (saveOk : Bool) : Except Unit OutlineData :=
  match src with
  | .ok v a p c => .ok ⟨v.getD [], a.getD [], p.getD [], c.getD []⟩
  | .missing => if saveOk then .ok emptyData else .error ()
  | .otherError => .ok emptyData

/-- Run a `(result, document, saved)` outcome against a save that
succeeds iff `saveOk`: a reached save that fails raises (carrying the
already-mutated in-memory document), everything else returns normally. -/
def runWithSave (saveOk : Bool) (r : α × OutlineData × Bool) :
    Except OutlineData (α × OutlineData) :=
  if r.2.2 && !saveOk then .error r.2.1 else .ok (r.1, r.2.1)

/-! ### Spec-side definitions (used to state claims in the words of the
specification, compared against the code-derived definitions above) -/

/-- The ordinals of the existing children of `parentPath` that carry the
type's prefix letter, as the specification describes them. -/
def siblingOrdinals (d : OutlineData) (parentPath : String) (pfx : Char) : List Int :=
  (getChildren d parentPath).filterMap (fun e => childOrdinal pfx e.1)

/-- The maximum sibling ordinal, 0 when there are none. -/
def maxSiblingOrdinal (d : OutlineData) (parentPath : String) (pfx : Char) : Int :=
  (siblingOrdinals d parentPath pfx).foldr max 0

/-! ### Concrete example documents used by witnesses and counterexamples -/

/-- A chapter node with empty metadata. -/
def chapterN (t : String) (i : Int) : OutlineNode := ⟨.chapter, t, some i, []⟩

/-- A volume node with empty metadata. -/
def volumeN (t : String) : OutlineNode := ⟨.volume, t, none, []⟩

/-- An act node with empty metadata. -/
def actN (t : String) : OutlineNode := ⟨.act, t, none, []⟩

/-- A plot-point node with empty metadata. -/
def plotPointN (t : String) : OutlineNode := ⟨.plot_point, t, none, []⟩

/-- A document whose only chapter has global index 7. -/
def dEx1 : OutlineData :=
  { volumes := [("/v1", volumeN "V1")]
    acts := [("/v1/a1", actN "A1")]
    plotPoints := [("/v1/a1/p1", plotPointN "P1")]
    chapters := [("/v1/a1/p1/c7", chapterN "C7" 7)] }

/-- A document with two act subtrees under one volume. -/
def dEx2 : OutlineData :=
  { volumes := [("/v1", volumeN "V1")]
    acts := [("/v1/a1", actN "A1"), ("/v1/a2", actN "A2")]
    plotPoints := [("/v1/a1/p1", plotPointN "P1"), ("/v1/a2/p1", plotPointN "Q1")]
    chapters := [("/v1/a1/p1/c1", chapterN "C1" 1), ("/v1/a2/p1/c2", chapterN "C2" 2)] }

/-- A document whose acts have a gap in their ordinals (`a1`, `a3`). -/
def dEx4 : OutlineData :=
  { volumes := [("/v1", volumeN "V1")]
    acts := [("/v1/a1", actN "A1"), ("/v1/a3", actN "A3")]
    plotPoints := []
    chapters := [] }

/-- A document with four chapters, stored out of index order. -/
def dEx8 : OutlineData :=
  { volumes := [("/v1", volumeN "V1")]
    acts := [("/v1/a1", actN "A1")]
    plotPoints := [("/v1/a1/p1", plotPointN "P1")]
    chapters := [("/v1/a1/p1/c5", chapterN "C5" 5), ("/v1/a1/p1/c1", chapterN "C1" 1),
                 ("/v1/a1/p1/c9", chapterN "C9" 9), ("/v1/a1/p1/c3", chapterN "C3" 3)] }

/-- The plot point of the nested example source: chapters declared with
indices 5, 3, 9 in that order. -/
def yPP6 : YamlPlotPoint :=
  ⟨"P1", some [⟨"Five", 5, []⟩, ⟨"Three", 3, []⟩, ⟨"Nine", 9, []⟩], []⟩

/-- The act of the nested example source. -/
def yAct6 : YamlAct := ⟨"A1", some [yPP6], []⟩

/-- The volume of the nested example source. -/
def yVol6 : YamlVolume := ⟨"V1", some [yAct6], [("core", JVal.str "x")]⟩

/-- A nested source document: one volume, one act, one plot point,
chapters declared with indices 5, 3, 9 in that order. -/
def yEx6 : YamlOutline := [yVol6]

/-! ### Helper lemmas: dictionaries -/

theorem mlookup_append (a b : NodeMap) (k : String) :
    mlookup (a ++ b) k =
      match mlookup a k with
      | some v => some v
      | none => mlookup b k := by
  induction a with
  | nil => rfl
  | cons e t ih =>
    by_cases h : e.1 == k <;> simp [mlookup, h, ih]

theorem keysOf_cons (e : String × OutlineNode) (t : NodeMap) :
    keysOf (e :: t) = e.1 :: keysOf t := rfl

theorem mlookup_minsert (m : NodeMap) (k : String) (v : OutlineNode) (x : String) :
    mlookup (minsert m k v) x = if x = k then some v else mlookup m x := by
  induction m with
  | nil => by_cases hx : x = k <;> simp [minsert, mlookup, hx, beq_iff_eq, Ne.symm]
  | cons e t ih =>
    rcases e with ⟨ek, ev⟩
    by_cases he : ek = k
    · subst he
      by_cases hx : x = ek <;>
        simp [minsert, mlookup, hx, beq_iff_eq, Ne.symm]
    · by_cases hx : x = ek <;>
        simp_all [minsert, mlookup, beq_iff_eq, Ne.symm]

theorem mlookup_isSome_iff_mem_keysOf (m : NodeMap) (x : String) :
    (mlookup m x).isSome = true ↔ x ∈ keysOf m := by
  induction m with
  | nil => simp [mlookup, keysOf]
  | cons e t ih =>
    rcases e with ⟨ek, ev⟩
    by_cases h : ek = x <;> simp [mlookup, keysOf_cons, h, beq_iff_eq, Ne.symm, ih]

theorem mem_keysOf_minsert (m : NodeMap) (k : String) (v : OutlineNode) (x : String) :
    x ∈ keysOf (minsert m k v) ↔ x = k ∨ x ∈ keysOf m := by
  rw [← mlookup_isSome_iff_mem_keysOf, ← mlookup_isSome_iff_mem_keysOf,
    mlookup_minsert]
  by_cases hx : x = k <;> simp [hx]

theorem mem_of_mlookup_eq_some (m : NodeMap) (k : String) (v : OutlineNode)
    (h : mlookup m k = some v) : (k, v) ∈ m := by
  induction m with
  | nil => simp [mlookup] at h
  | cons e t ih =>
    rcases e with ⟨ek, ev⟩
    by_cases he : ek = k
    · subst he
      simp only [mlookup, beq_self_eq_true, if_pos, Option.some.injEq] at h
      subst h
      exact List.mem_cons_self _ _
    · simp only [mlookup, beq_iff_eq, he, if_false] at h
      exact List.mem_cons_of_mem _ (ih h)

/-! ### Helper lemmas: records and spread merge -/

theorem rhas_iff_isSome (r : JRec) (k : String) :
    rhas r k = (rlookup r k).isSome := by
  induction r with
  | nil => rfl
  | cons e t ih =>
    by_cases h : e.1 = k <;> simp [rhas, rlookup, h, beq_iff_eq, ih]

theorem rlookup_append (a b : JRec) (k : String) :
    rlookup (a ++ b) k =
      match rlookup a k with
      | some v => some v
      | none => rlookup b k := by
  induction a with
  | nil => rfl
  | cons e t ih =>
    by_cases h : e.1 == k <;> simp [rlookup, h, ih]

theorem rlookup_mapMerge (a b : JRec) (k : String) :
    rlookup (a.map (fun e => match rlookup b e.1 with
        | some v => (e.1, v)
        | none => e)) k =
      match rlookup a k, rlookup b k with
      | some _, some v => some v
      | some v0, none => some v0
      | none, _ => none := by
  induction a with
  | nil => cases rlookup b k <;> rfl
  | cons e t ih =>
    rcases e with ⟨ek, ev⟩
    by_cases he : ek = k
    · subst he
      cases hb : rlookup b ek <;> simp [rlookup, hb]
    · cases hb : rlookup b ek <;>
        simp only [List.map_cons, rlookup, hb, beq_iff_eq, he, if_false, ih]

theorem rlookup_filterNotHas (a b : JRec) (k : String) :
    rlookup (b.filter (fun e => !(rhas a e.1))) k =
      if rhas a k then none else rlookup b k := by
  induction b with
  | nil => by_cases h : rhas a k <;> simp [rlookup, h]
  | cons e t ih =>
    rcases e with ⟨ek, ev⟩
    by_cases he : ek = k
    · subst he
      by_cases ha : rhas a ek <;> simp [rlookup, List.filter_cons, ha, ih]
    · by_cases ha : rhas a ek <;>
        simp [rlookup, List.filter_cons, ha, he, beq_iff_eq, ih]

theorem rlookup_rmerge (a b : JRec) (k : String) :
    rlookup (rmerge a b) k =
      match rlookup b k with
      | some v => some v
      | none => rlookup a k := by
  unfold rmerge
  rw [rlookup_append, rlookup_mapMerge, rlookup_filterNotHas, rhas_iff_isSome]
  cases rlookup a k <;> cases rlookup b k <;> simp

/-! ### Helper lemmas: the running maximum of `generateNextChildId` -/

theorem foldr_max_pull (t : List Int) (a n : Int) :
    t.foldr max (max a n) = max n (t.foldr max a) := by
  induction t with
  | nil => exact max_comm a n
  | cons c t ih =>
    simp only [List.foldr_cons, ih]
    exact max_left_comm c n (t.foldr max a)

theorem foldl_clampmax (l : List Int) (a : Int) :
    l.foldl (fun m n => if n > m then n else m) a = l.foldr max a := by
  induction l generalizing a with
  | nil => rfl
  | cons n t ih =>
    simp only [List.foldl_cons, List.foldr_cons, ih]
    have h : (if n > a then n else a) = max a n := by
      rw [max_def]
      split <;> split <;> omega
    rw [h, foldr_max_pull]

theorem foldl_childOrdinal_filterMap (pfx : Char) (l : List (String × OutlineNode)) (a : Int) :
    l.foldl (fun maxId e =>
        match childOrdinal pfx e.1 with
        | some num => if num > maxId then num else maxId
        | none => maxId) a
      = (l.filterMap (fun e => childOrdinal pfx e.1)).foldl
          (fun m n => if n > m then n else m) a := by
  induction l generalizing a with
  | nil => rfl
  | cons e t ih =>
    cases h : childOrdinal pfx e.1 <;>
      simp [List.filterMap_cons, h, ih]

/-- The code's `generateNextChildId` computes exactly max-of-sibling
ordinals plus one (max taken as 0 when there are none). -/
theorem generateNextChildId_eq (d : OutlineData) (parentPath : String) (pfx : Char) :
    generateNextChildId d parentPath pfx = maxSiblingOrdinal d parentPath pfx + 1 := by
  unfold generateNextChildId maxSiblingOrdinal siblingOrdinals
  rw [foldl_childOrdinal_filterMap, foldl_clampmax]

/-! ### Helper lemmas: document plumbing -/

theorem dictOf_setDict (d : OutlineData) (ty ty2 : NodeType) (m : NodeMap) :
    dictOf (setDict d ty m) ty2 = if ty2 = ty then m else dictOf d ty2 := by
  cases ty <;> cases ty2 <;> simp [setDict, dictOf]

theorem mem_mdelete (m : NodeMap) (k : String) (e : String × OutlineNode) :
    e ∈ mdelete m k ↔ e ∈ m ∧ e.1 ≠ k := by
  unfold mdelete
  rw [List.mem_filter]
  simp [beq_iff_eq]

/-! ### Helper lemmas: every failure path returns before mutating or saving -/

theorem addNodeE_fail (d : OutlineData) (pp : String) (inp : AddInput)
    (h : (addNodeE d pp inp).1 = none) : addNodeE d pp inp = (none, d, false) := by
  by_cases h1 : (pp != "/") && (getNode d pp).isNone
  · simp [addNodeE, h1]
  · by_cases h2 : parentPTypeOf pp != expectedParentPType inp.type
    · simp [addNodeE, h1, h2]
    · by_cases h3 : inp.type == NodeType.chapter
      · cases hidx : inp.index with
        | none => simp [addNodeE, h1, h2, h3, hidx]
        | some i =>
          by_cases h4 : (mlookup d.chapters (pp ++ "/c" ++ toString i)).isSome
          · simp [addNodeE, h1, h2, h3, hidx, h4]
          · simp [addNodeE, h1, h2, h3, hidx, h4] at h
      · simp [addNodeE, h1, h2, h3] at h

theorem updateNodeE_fail (d : OutlineData) (p : String) (patch : UpdatePatch)
    (h : (updateNodeE d p patch).1 = false) : updateNodeE d p patch = (false, d, false) := by
  unfold updateNodeE at h ⊢
  cases hty : getNodeTypeFromPath p with
  | none => simp
  | some ty =>
    cases hm : mlookup (dictOf d ty) p with
    | none => simp [hm]
    | some ex =>
      rw [hty] at h
      simp [hm] at h

theorem deleteNodeE_fail (d : OutlineData) (p : String)
    (h : (deleteNodeE d p).1 = false) : deleteNodeE d p = (false, d, false) := by
  unfold deleteNodeE at h ⊢
  cases hty : getNodeTypeFromPath p with
  | none => simp
  | some ty =>
    cases hm : mlookup (dictOf d ty) p with
    | none => simp [hm]
    | some nd =>
      rw [hty] at h
      simp [hm] at h

/-! ### Helper lemmas: the migration -/

theorem exists_getElem?_cons {α : Type} (a : α) (l : List α) (P : Nat → α → Prop) :
    (∃ j x, (a :: l)[j]? = some x ∧ P j x) ↔ P 0 a ∨ ∃ j x, l[j]? = some x ∧ P (j + 1) x := by
  constructor
  · rintro ⟨j, x, hj, hP⟩
    cases j with
    | zero =>
      simp only [List.getElem?_cons_zero, Option.some.injEq] at hj
      subst hj
      exact Or.inl hP
    | succ j =>
      right
      exact ⟨j, x, by simpa using hj, hP⟩
  · rintro (hP | ⟨j, x, hj, hP⟩)
    · exact ⟨0, a, by simp, hP⟩
    · exact ⟨j + 1, x, by simpa using hj, hP⟩

theorem exists_lt_cons_length {α : Type} (a : α) (l : List α) (P : Nat → Prop) :
    (∃ j, j < (a :: l).length ∧ P j) ↔ P 0 ∨ ∃ j, j < l.length ∧ P (j + 1) := by
  constructor
  · rintro ⟨j, hj, hP⟩
    cases j with
    | zero => exact Or.inl hP
    | succ j =>
      right
      exact ⟨j, by simpa using hj, hP⟩
  · rintro (h | ⟨j, hj, hP⟩)
    · exact ⟨0, by simp, h⟩
    · exact ⟨j + 1, by simpa using hj, hP⟩

theorem migrateChapters_volumes (pp : String) (chs : List YamlChapter) (st : OutlineData) :
    (migrateChapters pp chs st).volumes = st.volumes := by
  induction chs generalizing st with
  | nil => rfl
  | cons ch t ih => simp [migrateChapters, ih]

theorem migrateChapters_acts (pp : String) (chs : List YamlChapter) (st : OutlineData) :
    (migrateChapters pp chs st).acts = st.acts := by
  induction chs generalizing st with
  | nil => rfl
  | cons ch t ih => simp [migrateChapters, ih]

theorem migrateChapters_plotPoints (pp : String) (chs : List YamlChapter) (st : OutlineData) :
    (migrateChapters pp chs st).plotPoints = st.plotPoints := by
  induction chs generalizing st with
  | nil => rfl
  | cons ch t ih => simp [migrateChapters, ih]

theorem keysOf_migrateChapters (pp : String) (chs : List YamlChapter) (st : OutlineData)
    (x : String) :
    x ∈ keysOf (migrateChapters pp chs st).chapters ↔
      (∃ ch ∈ chs, x = pp ++ "/c" ++ toString ch.chapter_index) ∨
        x ∈ keysOf st.chapters := by
  induction chs generalizing st with
  | nil => simp [migrateChapters]
  | cons ch t ih =>
    rw [migrateChapters, ih]
    simp only [mem_keysOf_minsert, List.mem_cons]
    constructor
    · rintro (⟨c, hc, hx⟩ | (rfl | hst))
      · exact Or.inl ⟨c, Or.inr hc, hx⟩
      · exact Or.inl ⟨ch, Or.inl rfl, rfl⟩
      · exact Or.inr hst
    · rintro (⟨c, (rfl | hc), hx⟩ | hst)
      · exact Or.inr (Or.inl hx)
      · exact Or.inl ⟨c, hc, hx⟩
      · exact Or.inr (Or.inr hst)

theorem migratePPs_volumes (ap : String) (k : Nat) (pps : List YamlPlotPoint)
    (st : OutlineData) : (migratePPs ap k pps st).volumes = st.volumes := by
  induction pps generalizing k st with
  | nil => rfl
  | cons pp t ih => simp [migratePPs, ih, migrateChapters_volumes]

theorem migratePPs_acts (ap : String) (k : Nat) (pps : List YamlPlotPoint)
    (st : OutlineData) : (migratePPs ap k pps st).acts = st.acts := by
  induction pps generalizing k st with
  | nil => rfl
  | cons pp t ih => simp [migratePPs, ih, migrateChapters_acts]

theorem keysOf_migratePPs_plotPoints (ap : String) (k : Nat) (pps : List YamlPlotPoint)
    (st : OutlineData) (x : String) :
    x ∈ keysOf (migratePPs ap k pps st).plotPoints ↔
      (∃ j, j < pps.length ∧ x = ap ++ "/p" ++ toString (k + j + 1)) ∨
        x ∈ keysOf st.plotPoints := by
  induction pps generalizing k st with
  | nil => simp [migratePPs]
  | cons pp t ih =>
    simp only [migratePPs]
    rw [ih, migrateChapters_plotPoints]
    dsimp only
    rw [mem_keysOf_minsert, exists_lt_cons_length]
    constructor
    · rintro (⟨j, hj, hx⟩ | (hx | hst))
      · rw [Nat.add_right_comm k 1 j] at hx
        exact Or.inl (Or.inr ⟨j, hj, hx⟩)
      · exact Or.inl (Or.inl hx)
      · exact Or.inr hst
    · rintro ((hx | ⟨j, hj, hx⟩) | hst)
      · exact Or.inr (Or.inl hx)
      · refine Or.inl ⟨j, hj, ?_⟩
        rw [Nat.add_right_comm k 1 j]
        exact hx
      · exact Or.inr (Or.inr hst)

theorem keysOf_migratePPs_chapters (ap : String) (k : Nat) (pps : List YamlPlotPoint)
    (st : OutlineData) (x : String) :
    x ∈ keysOf (migratePPs ap k pps st).chapters ↔
      (∃ j pp, pps[j]? = some pp ∧ ∃ ch ∈ pp.chapters.getD [],
          x = ap ++ "/p" ++ toString (k + j + 1) ++ "/c" ++ toString ch.chapter_index) ∨
        x ∈ keysOf st.chapters := by
  induction pps generalizing k st with
  | nil => simp [migratePPs]
  | cons pp t ih =>
    simp only [migratePPs]
    rw [ih, keysOf_migrateChapters]
    dsimp only
    rw [exists_getElem?_cons pp t (fun (j : Nat) (pp0 : YamlPlotPoint) =>
      ∃ ch ∈ pp0.chapters.getD [],
        x = ap ++ "/p" ++ toString (k + j + 1) ++ "/c" ++ toString ch.chapter_index)]
    constructor
    · rintro (⟨j, pp0, hj, ch, hch, hx⟩ | (⟨ch, hch, hx⟩ | hst))
      · rw [Nat.add_right_comm k 1 j] at hx
        exact Or.inl (Or.inr ⟨j, pp0, hj, ch, hch, hx⟩)
      · exact Or.inl (Or.inl ⟨ch, hch, hx⟩)
      · exact Or.inr hst
    · rintro ((⟨ch, hch, hx⟩ | ⟨j, pp0, hj, ch, hch, hx⟩) | hst)
      · exact Or.inr (Or.inl ⟨ch, hch, hx⟩)
      · refine Or.inl ⟨j, pp0, hj, ch, hch, ?_⟩
        rw [Nat.add_right_comm k 1 j]
        exact hx
      · exact Or.inr (Or.inr hst)

theorem migrateActs_volumes (vp : String) (j : Nat) (acts : List YamlAct)
    (st : OutlineData) : (migrateActs vp j acts st).volumes = st.volumes := by
  induction acts generalizing j st with
  | nil => rfl
  | cons a t ih => simp [migrateActs, ih, migratePPs_volumes]

theorem keysOf_migrateActs_acts (vp : String) (j : Nat) (acts : List YamlAct)
    (st : OutlineData) (x : String) :
    x ∈ keysOf (migrateActs vp j acts st).acts ↔
      (∃ a, a < acts.length ∧ x = vp ++ "/a" ++ toString (j + a + 1)) ∨
        x ∈ keysOf st.acts := by
  induction acts generalizing j st with
  | nil => simp [migrateActs]
  | cons a t ih =>
    simp only [migrateActs]
    rw [ih, migratePPs_acts]
    dsimp only
    rw [mem_keysOf_minsert, exists_lt_cons_length]
    constructor
    · rintro (⟨i, hi, hx⟩ | (hx | hst))
      · rw [Nat.add_right_comm j 1 i] at hx
        exact Or.inl (Or.inr ⟨i, hi, hx⟩)
      · exact Or.inl (Or.inl hx)
      · exact Or.inr hst
    · rintro ((hx | ⟨i, hi, hx⟩) | hst)
      · exact Or.inr (Or.inl hx)
      · refine Or.inl ⟨i, hi, ?_⟩
        rw [Nat.add_right_comm j 1 i]
        exact hx
      · exact Or.inr (Or.inr hst)

theorem keysOf_migrateActs_plotPoints (vp : String) (j : Nat) (acts : List YamlAct)
    (st : OutlineData) (x : String) :
    x ∈ keysOf (migrateActs vp j acts st).plotPoints ↔
      (∃ a act, acts[a]? = some act ∧ ∃ kk, kk < (act.plot_points.getD []).length ∧
          x = vp ++ "/a" ++ toString (j + a + 1) ++ "/p" ++ toString (kk + 1)) ∨
        x ∈ keysOf st.plotPoints := by
  induction acts generalizing j st with
  | nil => simp [migrateActs]
  | cons a t ih =>
    simp only [migrateActs]
    rw [ih, keysOf_migratePPs_plotPoints]
    dsimp only
    simp only [Nat.zero_add]
    rw [exists_getElem?_cons a t (fun (i : Nat) (act : YamlAct) =>
      ∃ kk, kk < (act.plot_points.getD []).length ∧
        x = vp ++ "/a" ++ toString (j + i + 1) ++ "/p" ++ toString (kk + 1))]
    constructor
    · rintro (⟨i, act, hi, kk, hkk, hx⟩ | (⟨kk, hkk, hx⟩ | hst))
      · rw [Nat.add_right_comm j 1 i] at hx
        exact Or.inl (Or.inr ⟨i, act, hi, kk, hkk, hx⟩)
      · exact Or.inl (Or.inl ⟨kk, hkk, hx⟩)
      · exact Or.inr hst
    · rintro ((⟨kk, hkk, hx⟩ | ⟨i, act, hi, kk, hkk, hx⟩) | hst)
      · exact Or.inr (Or.inl ⟨kk, hkk, hx⟩)
      · refine Or.inl ⟨i, act, hi, kk, hkk, ?_⟩
        rw [Nat.add_right_comm j 1 i]
        exact hx
      · exact Or.inr (Or.inr hst)

theorem keysOf_migrateActs_chapters (vp : String) (j : Nat) (acts : List YamlAct)
    (st : OutlineData) (x : String) :
    x ∈ keysOf (migrateActs vp j acts st).chapters ↔
      (∃ a act, acts[a]? = some act ∧ ∃ kk pp, (act.plot_points.getD [])[kk]? = some pp ∧
          ∃ ch ∈ pp.chapters.getD [],
            x = vp ++ "/a" ++ toString (j + a + 1) ++ "/p" ++ toString (kk + 1) ++ "/c" ++
              toString ch.chapter_index) ∨
        x ∈ keysOf st.chapters := by
  induction acts generalizing j st with
  | nil => simp [migrateActs]
  | cons a t ih =>
    simp only [migrateActs]
    rw [ih, keysOf_migratePPs_chapters]
    dsimp only
    simp only [Nat.zero_add]
    constructor
    · rintro (⟨i, act, hi, kk, pp, hkk, ch, hch, hx⟩ | (⟨kk, pp, hkk, ch, hch, hx⟩ | hst))
      · rw [Nat.add_right_comm j 1 i] at hx
        exact ⟨i + 1, act, by simpa using hi, kk, pp, hkk, ch, hch, hx⟩ |> Or.inl
      · exact Or.inl ⟨0, a, by simp, kk, pp, hkk, ch, hch, hx⟩
      · exact Or.inr hst
    · rintro (⟨i, act, hi, kk, pp, hkk, ch, hch, hx⟩ | hst)
      · cases i with
        | zero =>
          simp only [List.getElem?_cons_zero, Option.some.injEq] at hi
          subst hi
          exact Or.inr (Or.inl ⟨kk, pp, hkk, ch, hch, hx⟩)
        | succ i =>
          refine Or.inl ⟨i, act, by simpa using hi, kk, pp, hkk, ch, hch, ?_⟩
          rw [Nat.add_right_comm j 1 i]
          exact hx
      · exact Or.inr (Or.inr hst)

theorem keysOf_migrateVolumes_volumes (i : Nat) (vols : List YamlVolume)
    (st : OutlineData) (x : String) :
    x ∈ keysOf (migrateVolumes i vols st).volumes ↔
      (∃ a, a < vols.length ∧ x = "/v" ++ toString (i + a + 1)) ∨
        x ∈ keysOf st.volumes := by
  induction vols generalizing i st with
  | nil => simp [migrateVolumes]
  | cons v t ih =>
    simp only [migrateVolumes]
    rw [ih, migrateActs_volumes]
    dsimp only
    rw [mem_keysOf_minsert, exists_lt_cons_length]
    constructor
    · rintro (⟨a, ha, hx⟩ | (hx | hst))
      · rw [Nat.add_right_comm i 1 a] at hx
        exact Or.inl (Or.inr ⟨a, ha, hx⟩)
      · exact Or.inl (Or.inl hx)
      · exact Or.inr hst
    · rintro ((hx | ⟨a, ha, hx⟩) | hst)
      · exact Or.inr (Or.inl hx)
      · refine Or.inl ⟨a, ha, ?_⟩
        rw [Nat.add_right_comm i 1 a]
        exact hx
      · exact Or.inr (Or.inr hst)

theorem keysOf_migrateVolumes_acts (i : Nat) (vols : List YamlVolume)
    (st : OutlineData) (x : String) :
    x ∈ keysOf (migrateVolumes i vols st).acts ↔
      (∃ a vol, vols[a]? = some vol ∧ ∃ b, b < (vol.acts.getD []).length ∧
          x = "/v" ++ toString (i + a + 1) ++ "/a" ++ toString (b + 1)) ∨
        x ∈ keysOf st.acts := by
  induction vols generalizing i st with
  | nil => simp [migrateVolumes]
  | cons v t ih =>
    simp only [migrateVolumes]
    rw [ih, keysOf_migrateActs_acts]
    dsimp only
    simp only [Nat.zero_add]
    constructor
    · rintro (⟨a, vol, ha, b, hb, hx⟩ | (⟨b, hb, hx⟩ | hst))
      · rw [Nat.add_right_comm i 1 a] at hx
        exact Or.inl ⟨a + 1, vol, by simpa using ha, b, hb, hx⟩
      · exact Or.inl ⟨0, v, by simp, b, hb, hx⟩
      · exact Or.inr hst
    · rintro (⟨a, vol, ha, b, hb, hx⟩ | hst)
      · cases a with
        | zero =>
          simp only [List.getElem?_cons_zero, Option.some.injEq] at ha
          subst ha
          exact Or.inr (Or.inl ⟨b, hb, hx⟩)
        | succ a =>
          refine Or.inl ⟨a, vol, by simpa using ha, b, hb, ?_⟩
          rw [Nat.add_right_comm i 1 a]
          exact hx
      · exact Or.inr (Or.inr hst)

theorem keysOf_migrateVolumes_plotPoints (i : Nat) (vols : List YamlVolume)
    (st : OutlineData) (x : String) :
    x ∈ keysOf (migrateVolumes i vols st).plotPoints ↔
      (∃ a vol, vols[a]? = some vol ∧ ∃ b act, (vol.acts.getD [])[b]? = some act ∧
          ∃ kk, kk < (act.plot_points.getD []).length ∧
            x = "/v" ++ toString (i + a + 1) ++ "/a" ++ toString (b + 1) ++ "/p" ++
              toString (kk + 1)) ∨
        x ∈ keysOf st.plotPoints := by
  induction vols generalizing i st with
  | nil => simp [migrateVolumes]
  | cons v t ih =>
    simp only [migrateVolumes]
    rw [ih, keysOf_migrateActs_plotPoints]
    dsimp only
    simp only [Nat.zero_add]
    constructor
    · rintro (⟨a, vol, ha, b, act, hb, kk, hkk, hx⟩ | (⟨b, act, hb, kk, hkk, hx⟩ | hst))
      · rw [Nat.add_right_comm i 1 a] at hx
        exact Or.inl ⟨a + 1, vol, by simpa using ha, b, act, hb, kk, hkk, hx⟩
      · exact Or.inl ⟨0, v, by simp, b, act, hb, kk, hkk, hx⟩
      · exact Or.inr hst
    · rintro (⟨a, vol, ha, b, act, hb, kk, hkk, hx⟩ | hst)
      · cases a with
        | zero =>
          simp only [List.getElem?_cons_zero, Option.some.injEq] at ha
          subst ha
          exact Or.inr (Or.inl ⟨b, act, hb, kk, hkk, hx⟩)
        | succ a =>
          refine Or.inl ⟨a, vol, by simpa using ha, b, act, hb, kk, hkk, ?_⟩
          rw [Nat.add_right_comm i 1 a]
          exact hx
      · exact Or.inr (Or.inr hst)

theorem keysOf_migrateVolumes_chapters (i : Nat) (vols : List YamlVolume)
    (st : OutlineData) (x : String) :
    x ∈ keysOf (migrateVolumes i vols st).chapters ↔
      (∃ a vol, vols[a]? = some vol ∧ ∃ b act, (vol.acts.getD [])[b]? = some act ∧
          ∃ kk pp, (act.plot_points.getD [])[kk]? = some pp ∧
            ∃ ch ∈ pp.chapters.getD [],
              x = "/v" ++ toString (i + a + 1) ++ "/a" ++ toString (b + 1) ++ "/p" ++
                toString (kk + 1) ++ "/c" ++ toString ch.chapter_index) ∨
        x ∈ keysOf st.chapters := by
  induction vols generalizing i st with
  | nil => simp [migrateVolumes]
  | cons v t ih =>
    simp only [migrateVolumes]
    rw [ih, keysOf_migrateActs_chapters]
    dsimp only
    simp only [Nat.zero_add]
    constructor
    · rintro (⟨a, vol, ha, b, act, hb, kk, pp, hkk, ch, hch, hx⟩ |
        (⟨b, act, hb, kk, pp, hkk, ch, hch, hx⟩ | hst))
      · rw [Nat.add_right_comm i 1 a] at hx
        exact Or.inl ⟨a + 1, vol, by simpa using ha, b, act, hb, kk, pp, hkk, ch, hch, hx⟩
      · exact Or.inl ⟨0, v, by simp, b, act, hb, kk, pp, hkk, ch, hch, hx⟩
      · exact Or.inr hst
    · rintro (⟨a, vol, ha, b, act, hb, kk, pp, hkk, ch, hch, hx⟩ | hst)
      · cases a with
        | zero =>
          simp only [List.getElem?_cons_zero, Option.some.injEq] at ha
          subst ha
          exact Or.inr (Or.inl ⟨b, act, hb, kk, pp, hkk, ch, hch, hx⟩)
        | succ a =>
          refine Or.inl ⟨a, vol, by simpa using ha, b, act, hb, kk, pp, hkk, ch, hch, ?_⟩
          rw [Nat.add_right_comm i 1 a]
          exact hx
      · exact Or.inr (Or.inr hst)

/-! ### Claim theorems -/

/-- Claim C1, counterexample.  In `dEx1` a chapter with `index = 7` exists
at `/v1/a1/p1/c7`, yet `getNode` resolves only the full path: the
references `"7"` and `"c7"` return not-found instead of addressing that
chapter, so the three reference syntaxes do not resolve equivalently. -/
theorem c1_reference_syntaxes_counterexample :
    getNode dEx1 "/v1/a1/p1/c7" = some ("/v1/a1/p1/c7", chapterN "C7" 7) ∧
    getNode dEx1 "7" = none ∧
    getNode dEx1 "c7" = none := by
  refine ⟨by decide, rfl, rfl⟩

/-- Claim C1, amended.  `getNode`, `updateNode`, `deleteNode` and the
chapter-window query accept only full paths: the bare reference `"7"` and
the prefixed reference `"c7"` are invalid paths and always produce a
not-found result, whether or not a chapter with index 7 exists, while the
chapter's full path addresses it exactly when it is present in the
chapter mapping (and yields not-found when it is absent). -/
theorem c1_reference_syntaxes_amended (d : OutlineData) :
    (getNode d "7" = none ∧ getNode d "c7" = none) ∧
    (∀ patch : UpdatePatch,
      (updateNodeE d "7" patch).1 = false ∧ (updateNodeE d "c7" patch).1 = false) ∧
    ((deleteNodeE d "7").1 = false ∧ (deleteNodeE d "c7").1 = false) ∧
    (∀ w : Nat,
      getChapterWindowByPath d "7" w = [] ∧ getChapterWindowByPath d "c7" w = []) ∧
    (∀ P n, getNodeTypeFromPath P = some NodeType.chapter →
      (mlookup d.chapters P = some n → getNode d P = some (P, n)) ∧
      (mlookup d.chapters P = none → getNode d P = none)) := by
  refine ⟨⟨rfl, rfl⟩, fun patch => ⟨rfl, rfl⟩, ⟨rfl, rfl⟩, fun w => ⟨rfl, rfl⟩, ?_⟩
  intro P n hty
  constructor
  · intro hm
    simp only [getNode, hty]
    have hd : dictOf d NodeType.chapter = d.chapters := rfl
    rw [hd, hm]
  · intro hm
    simp only [getNode, hty]
    have hd : dictOf d NodeType.chapter = d.chapters := rfl
    rw [hd, hm]

/-- Claim C1, amended, witness at `dEx1`. -/
theorem c1_reference_syntaxes_amended_witness :
    getNode dEx1 "/v1/a1/p1/c7" = some ("/v1/a1/p1/c7", chapterN "C7" 7) ∧
    getNode dEx1 "7" = none := by
  have h := c1_reference_syntaxes_amended dEx1
  exact ⟨(h.2.2.2.2 "/v1/a1/p1/c7" (chapterN "C7" 7) (by decide)).1 (by decide), h.1.1⟩

/-- Claim C2.  When a node exists at `P`, `deleteNode P` returns true,
removes the entry at `P` from its own mapping, removes from all four
mappings exactly the entries whose path starts with `P ++ "/"`, and
leaves every other entry of every mapping unchanged. -/
theorem c2_deleteNode_cascade_frame (d : OutlineData) (P : String)
    (x : String × OutlineNode) (h : getNode d P = some x) :
    (deleteNodeE d P).1 = true ∧
    (∀ ty p n, strStarts p (P ++ "/") = true →
      (p, n) ∉ dictOf (deleteNodeE d P).2.1 ty) ∧
    (∀ ty n, getNodeTypeFromPath P = some ty →
      (P, n) ∉ dictOf (deleteNodeE d P).2.1 ty) ∧
    (∀ ty p n, strStarts p (P ++ "/") = false → p ≠ P →
      ((p, n) ∈ dictOf (deleteNodeE d P).2.1 ty ↔ (p, n) ∈ dictOf d ty)) := by
  cases hty : getNodeTypeFromPath P with
  | none =>
    simp only [getNode, hty] at h
    exact Option.noConfusion h
  | some ty0 =>
    simp only [getNode, hty] at h
    cases hm : mlookup (dictOf d ty0) P with
    | none =>
      rw [hm] at h
      simp at h
    | some nd =>
      have hD : ∀ ty, dictOf (deleteNodeE d P).2.1 ty =
          (dictOf (setDict d ty0 (mdelete (dictOf d ty0) P)) ty).filter
            (fun e => !(strStarts e.1 (P ++ "/"))) := by
        intro ty
        cases ty <;> simp only [deleteNodeE, hty, hm] <;> rfl
      refine ⟨by simp [deleteNodeE, hty, hm], ?_, ?_, ?_⟩
      · intro ty p n hpre hmem
        rw [hD ty] at hmem
        have := (List.mem_filter.mp hmem).2
        simp [hpre] at this
      · intro ty n hty2 hmem
        injection hty2 with hty3
        subst hty3
        rw [hD ty0] at hmem
        have hmem2 := (List.mem_filter.mp hmem).1
        rw [dictOf_setDict, if_pos rfl] at hmem2
        exact absurd rfl (mem_mdelete _ _ _ |>.mp hmem2).2
      · intro ty p n hpre hne
        rw [hD ty, List.mem_filter, dictOf_setDict]
        by_cases hteq : ty = ty0
        · rw [if_pos hteq, mem_mdelete]
          subst hteq
          simp [hpre, hne]
        · rw [if_neg hteq]
          simp [hpre]

/-- Claim C2, witness: deleting `/v1/a1` in `dEx2` succeeds, removes its
descendant chapter, and keeps the sibling act `/v1/a2`. -/
theorem c2_deleteNode_cascade_frame_witness :
    (deleteNodeE dEx2 "/v1/a1").1 = true ∧
    ("/v1/a1/p1/c1", chapterN "C1" 1) ∉ dictOf (deleteNodeE dEx2 "/v1/a1").2.1 NodeType.chapter ∧
    ("/v1/a2", actN "A2") ∈ dictOf (deleteNodeE dEx2 "/v1/a1").2.1 NodeType.act := by
  have h := c2_deleteNode_cascade_frame dEx2 "/v1/a1" ("/v1/a1", actN "A1") (by decide)
  refine ⟨h.1, h.2.1 NodeType.chapter "/v1/a1/p1/c1" (chapterN "C1" 1) (by decide), ?_⟩
  exact (h.2.2.2 NodeType.act "/v1/a2" (actN "A2") (by decide) (by decide)).mpr (by decide)

/-- Claim C3.  Under an existing plot-point parent, a chapter's path is
`parentPath ++ "/c" ++ index` computed from the supplied global index
alone (no sibling count involved): a missing index returns null and
changes nothing, a collision with an existing chapter path returns null
and changes nothing, and otherwise the node is stored at exactly that
path. -/
theorem c3_addNode_chapter_index_path (d : OutlineData) (parentPath : String)
    (hty : getNodeTypeFromPath parentPath = some NodeType.plot_point)
    (hex : (getNode d parentPath).isSome = true) :
    (∀ title meta rest,
      addNodeE d parentPath ⟨NodeType.chapter, title, none, meta, rest⟩ = (none, d, false)) ∧
    (∀ i title meta rest,
      (mlookup d.chapters (parentPath ++ "/c" ++ toString i)).isSome = true →
      addNodeE d parentPath ⟨NodeType.chapter, title, some i, meta, rest⟩ = (none, d, false)) ∧
    (∀ i title meta rest,
      mlookup d.chapters (parentPath ++ "/c" ++ toString i) = none →
      (addNodeE d parentPath ⟨NodeType.chapter, title, some i, meta, rest⟩).1 =
          some (parentPath ++ "/c" ++ toString i) ∧
      mlookup ((addNodeE d parentPath ⟨NodeType.chapter, title, some i, meta, rest⟩).2.1).chapters
          (parentPath ++ "/c" ++ toString i) =
        some ⟨NodeType.chapter, title, some i, rmerge (meta.getD []) rest⟩) := by
  have hroot : (parentPath == "/") = false := by
    by_cases heq : parentPath = "/"
    · subst heq
      exact absurd hty (by decide)
    · simp [heq]
  have hnone : (getNode d parentPath).isNone = false := by
    cases hg : getNode d parentPath
    · rw [hg] at hex
      simp at hex
    · rfl
  have hguard1 : ((parentPath != "/") && (getNode d parentPath).isNone) = false := by
    simp [bne, hroot, hnone]
  have hpt : parentPTypeOf parentPath = PType.node NodeType.plot_point := by
    unfold parentPTypeOf
    simp [hroot, hty]
  have hguard2 :
      (parentPTypeOf parentPath != expectedParentPType NodeType.chapter) = false := by
    simp [hpt, expectedParentPType]
  refine ⟨?_, ?_, ?_⟩
  · intro title meta rest
    simp [addNodeE, hguard1, hguard2]
  · intro i title meta rest hdup
    simp [addNodeE, hguard1, hguard2, hdup]
  · intro i title meta rest hfresh
    have hfresh2 : (mlookup d.chapters (parentPath ++ "/c" ++ toString i)).isSome = false := by
      rw [hfresh]
      rfl
    constructor
    · simp [addNodeE, hguard1, hguard2, hfresh2]
    · simp only [addNodeE, hguard1, hguard2, hfresh2, Bool.false_eq_true, if_false,
        beq_self_eq_true, if_true]
      have hd : ∀ m, (setDict d NodeType.chapter m).chapters = m := fun m => rfl
      simp [hd, dictOf, mlookup_minsert]

/-- Claim C3, witness at `dEx1`: a fresh index yields the index-derived
path, the missing index and the colliding index 7 both fail. -/
theorem c3_addNode_chapter_index_path_witness :
    (addNodeE dEx1 "/v1/a1/p1" ⟨NodeType.chapter, "C12", some 12, none, []⟩).1 =
        some "/v1/a1/p1/c12" ∧
    addNodeE dEx1 "/v1/a1/p1" ⟨NodeType.chapter, "dup", some 7, none, []⟩ =
        (none, dEx1, false) ∧
    addNodeE dEx1 "/v1/a1/p1" ⟨NodeType.chapter, "noidx", none, none, []⟩ =
        (none, dEx1, false) := by
  have h := c3_addNode_chapter_index_path dEx1 "/v1/a1/p1" (by decide) (by decide)
  refine ⟨?_, ?_, ?_⟩
  · exact ((h.2.2 12 "C12" none [] (by decide)).1).trans (by decide)
  · exact h.2.1 7 "dup" none [] (by decide)
  · exact h.1 "noidx" none []

/-- Claim C4.  For a non-chapter type under an existing parent of the
required type, `addNode` allocates the ordinal `1 + max(existing sibling
ordinals carrying the type's prefix)` (max taken as 0 when there are
none) and returns the corresponding child path; `generateNextChildId` is
exactly that maximum plus one. -/
theorem c4_addNode_next_ordinal (d : OutlineData) (parentPath : String) (ty : NodeType)
    (hty : ty ≠ NodeType.chapter)
    (hp : parentPTypeOf parentPath = expectedParentPType ty)
    (hex : parentPath = "/" ∨ (getNode d parentPath).isSome = true)
    (title : String) (idx : Option Int) (meta : Option JRec) (rest : JRec) :
    generateNextChildId d parentPath (childPfxOf ty) =
        maxSiblingOrdinal d parentPath (childPfxOf ty) + 1 ∧
    (addNodeE d parentPath ⟨ty, title, idx, meta, rest⟩).1 =
        some (mkChildPath parentPath (childPfxOf ty)
          (maxSiblingOrdinal d parentPath (childPfxOf ty) + 1)) := by
  refine ⟨generateNextChildId_eq d parentPath (childPfxOf ty), ?_⟩
  have hguard1 : ((parentPath != "/") && (getNode d parentPath).isNone) = false := by
    rcases hex with hr | hs
    · simp [hr]
    · cases hg : getNode d parentPath
      · rw [hg] at hs
        simp at hs
      · simp [hg]
  have hguard2 : (parentPTypeOf parentPath != expectedParentPType ty) = false := by
    simp [hp]
  have hch : (ty == NodeType.chapter) = false := by
    cases ty <;> simp_all
  simp [addNodeE, hguard1, hguard2, hch, generateNextChildId_eq]

/-- Claim C4, witness: with acts `/v1/a1` and `/v1/a3` (gap at 2), a new
act under `/v1` gets path `/v1/a4`. -/
theorem c4_addNode_next_ordinal_witness :
    (addNodeE dEx4 "/v1" ⟨NodeType.act, "A new", none, none, []⟩).1 = some "/v1/a4" := by
  have h := c4_addNode_next_ordinal dEx4 "/v1" NodeType.act (by decide) (by decide)
    (Or.inr (by decide)) "A new" none none []
  exact h.2.trans (by decide)

/-- Claim C7.  `addNode` returns null and leaves the document unchanged
and unsaved both when a non-root parent path does not resolve to a node
and when the parent path's classification differs from the required
parent type of the node being added. -/
theorem c7_addNode_parent_validation :
    (∀ (d : OutlineData) (pp : String) (inp : AddInput), pp ≠ "/" → getNode d pp = none →
      addNodeE d pp inp = (none, d, false)) ∧
    (∀ (d : OutlineData) (pp : String) (inp : AddInput),
      parentPTypeOf pp ≠ expectedParentPType inp.type →
      addNodeE d pp inp = (none, d, false)) := by
  constructor
  · intro d pp inp hne hg
    have hguard1 : ((pp != "/") && (getNode d pp).isNone) = true := by
      simp [bne_iff_ne, hne, hg]
    simp [addNodeE, hguard1]
  · intro d pp inp hp
    by_cases hcond : ((pp != "/") && (getNode d pp).isNone) = true
    · simp [addNodeE, hcond]
    · have hcondf : ((pp != "/") && (getNode d pp).isNone) = false := by
        cases hb : ((pp != "/") && (getNode d pp).isNone)
        · rfl
        · exact absurd hb hcond
      have h2 : (parentPTypeOf pp != expectedParentPType inp.type) = true := by
        simp [bne_iff_ne, hp]
      simp [addNodeE, hcondf, h2]

/-- Claim C7, witness: adding an act directly under root is a
type-mismatch failure, not a created node. -/
theorem c7_addNode_parent_validation_witness :
    addNodeE dEx1 "/" ⟨NodeType.act, "A", none, none, []⟩ = (none, dEx1, false) :=
  c7_addNode_parent_validation.2 dEx1 "/" ⟨NodeType.act, "A", none, none, []⟩ (by decide)

/-- Claim C9.  Whenever `addNode` returns null, `updateNode` returns
false, or `deleteNode` returns false, the document is returned exactly
as it was and the save flag is false: failures happen before any
mutation, and the save runs only on the success path. -/
theorem c9_failure_is_pure :
    (∀ (d : OutlineData) (pp : String) (inp : AddInput),
      (addNodeE d pp inp).1 = none → addNodeE d pp inp = (none, d, false)) ∧
    (∀ (d : OutlineData) (p : String) (patch : UpdatePatch),
      (updateNodeE d p patch).1 = false → updateNodeE d p patch = (false, d, false)) ∧
    (∀ (d : OutlineData) (p : String),
      (deleteNodeE d p).1 = false → deleteNodeE d p = (false, d, false)) :=
  ⟨addNodeE_fail, updateNodeE_fail, deleteNodeE_fail⟩

/-- Claim C9, witness: a failing add (missing parent), a failing update
and a failing delete (bad path) all leave `dEx1` untouched and unsaved. -/
theorem c9_failure_is_pure_witness :
    addNodeE dEx1 "/v9" ⟨NodeType.act, "A", none, none, []⟩ = (none, dEx1, false) ∧
    updateNodeE dEx1 "/v9" ⟨none, none, none, []⟩ = (false, dEx1, false) ∧
    deleteNodeE dEx1 "badpath" = (false, dEx1, false) := by
  refine ⟨c9_failure_is_pure.1 dEx1 "/v9" _ (by decide),
    c9_failure_is_pure.2.1 dEx1 "/v9" _ (by decide),
    c9_failure_is_pure.2.2 dEx1 "badpath" (by decide)⟩

theorem runWithSave_error_saveOk {α : Type} (saveOk : Bool) (r : α × OutlineData × Bool)
    (st : OutlineData) (h : runWithSave saveOk r = Except.error st) : saveOk = false := by
  unfold runWithSave at h
  split at h
  · next hc =>
    cases hs : saveOk
    · rfl
    · rw [hs] at hc
      simp at hc
  · exact Except.noConfusion h

/-- Claim C5.  Structural and validation failures of the CRUD operations
return null/false without raising, regardless of whether a save could
succeed; each of these operations (and the document load) raises only
when it reached a save and the save failed; and the migration catches
everything, turning a failed read and even a failed final save into a
normal `false` return. -/
theorem c5_persistence_error_policy :
    (∀ (saveOk : Bool) (d : OutlineData) (pp : String) (inp : AddInput),
      (addNodeE d pp inp).1 = none →
      runWithSave saveOk (addNodeE d pp inp) = Except.ok (none, d)) ∧
    (∀ (saveOk : Bool) (d : OutlineData) (p : String) (patch : UpdatePatch),
      (updateNodeE d p patch).1 = false →
      runWithSave saveOk (updateNodeE d p patch) = Except.ok (false, d)) ∧
    (∀ (saveOk : Bool) (d : OutlineData) (p : String),
      (deleteNodeE d p).1 = false →
      runWithSave saveOk (deleteNodeE d p) = Except.ok (false, d)) ∧
    (∀ (saveOk : Bool) (d : OutlineData) (pp : String) (inp : AddInput) (st : OutlineData),
      runWithSave saveOk (addNodeE d pp inp) = Except.error st → saveOk = false) ∧
    (∀ (saveOk : Bool) (d : OutlineData) (p : String) (patch : UpdatePatch) (st : OutlineData),
      runWithSave saveOk (updateNodeE d p patch) = Except.error st → saveOk = false) ∧
    (∀ (saveOk : Bool) (d : OutlineData) (p : String) (st : OutlineData),
      runWithSave saveOk (deleteNodeE d p) = Except.error st → saveOk = false) ∧
    (∀ (src : LoadSrc) (saveOk : Bool),
      loadDataOp src saveOk = Except.error () → saveOk = false) ∧
    (∀ (y : YamlOutline) (saveOk : Bool) (d : OutlineData),
      convertYAMLToJSONOp (some y) saveOk d = (saveOk, migrateData y)) ∧
    (∀ (saveOk : Bool) (d : OutlineData),
      convertYAMLToJSONOp none saveOk d = (false, d)) := by
  refine ⟨?_, ?_, ?_, ?_, ?_, ?_, ?_, ?_, ?_⟩
  · intro saveOk d pp inp h
    rw [addNodeE_fail d pp inp h]
    simp [runWithSave]
  · intro saveOk d p patch h
    rw [updateNodeE_fail d p patch h]
    simp [runWithSave]
  · intro saveOk d p h
    rw [deleteNodeE_fail d p h]
    simp [runWithSave]
  · intro saveOk d pp inp st h
    exact runWithSave_error_saveOk saveOk _ st h
  · intro saveOk d p patch st h
    exact runWithSave_error_saveOk saveOk _ st h
  · intro saveOk d p st h
    exact runWithSave_error_saveOk saveOk _ st h
  · intro src saveOk h
    cases src with
    | ok v a p c => exact Except.noConfusion h
    | missing =>
      unfold loadDataOp at h
      cases hs : saveOk
      · rfl
      · rw [hs] at h
        simp at h
    | otherError => exact Except.noConfusion h
  · intro y saveOk d
    cases saveOk <;> rfl
  · intro saveOk d
    rfl

/-- Claim C5, witness: a failing add returns null without raising even
with a healthy save, and the migration reports a failed save as `false`
rather than raising. -/
theorem c5_persistence_error_policy_witness :
    runWithSave true (addNodeE dEx1 "/v9" ⟨NodeType.act, "A", none, none, []⟩) =
        Except.ok (none, dEx1) ∧
    convertYAMLToJSONOp (some yEx6) false dEx1 = (false, migrateData yEx6) :=
  ⟨c5_persistence_error_policy.1 true dEx1 "/v9" _ (by decide),
   c5_persistence_error_policy.2.2.2.2.2.2.2.1 yEx6 false dEx1⟩

theorem updNode_metadata_index (node : OutlineNode) (patch : UpdatePatch) (v : JVal)
    (hidx : rlookup patch.rest "index" = some v) :
    rlookup (updNode node patch).metadata "index" = some v := by
  unfold updNode
  dsimp only
  rw [rlookup_rmerge, hidx]

theorem updNode_index_of_chapter (node : OutlineNode) (patch : UpdatePatch) (n : Int)
    (hidx : rlookup patch.rest "index" = some (JVal.num n))
    (h : node.type = NodeType.chapter) :
    (updNode node patch).index = some n := by
  unfold updNode
  rw [hidx]
  cases hT : patch.newTitle <;> simp [h]

theorem updNode_index_of_nonchapter (node : OutlineNode) (patch : UpdatePatch)
    (h : node.type ≠ NodeType.chapter) :
    (updNode node patch).index = node.index := by
  unfold updNode
  cases hT : patch.newTitle <;> cases hr : rlookup patch.rest "index" <;> simp [h]

/-- Claim C10.  When a patch carries an `index` field, `updateNode`
merges it into the metadata bag (it is not stripped before the merge):
for a chapter the stored `index` field is overwritten as well, for a
non-chapter node the stored index data is untouched and `index` silently
becomes a metadata entry. -/
theorem c10_update_index_into_metadata (d : OutlineData) (p : String) (ty : NodeType)
    (node : OutlineNode) (patch : UpdatePatch) (n : Int)
    (hty : getNodeTypeFromPath p = some ty)
    (hm : mlookup (dictOf d ty) p = some node)
    (hidx : rlookup patch.rest "index" = some (JVal.num n)) :
    (updateNodeE d p patch).1 = true ∧
    mlookup (dictOf (updateNodeE d p patch).2.1 ty) p = some (updNode node patch) ∧
    rlookup (updNode node patch).metadata "index" = some (JVal.num n) ∧
    (node.type = NodeType.chapter → (updNode node patch).index = some n) ∧
    (node.type ≠ NodeType.chapter → (updNode node patch).index = node.index) := by
  have hrun : updateNodeE d p patch =
      (true, setDict d ty (minsert (dictOf d ty) p (updNode node patch)), true) := by
    simp only [updateNodeE, hty, hm]
  refine ⟨by rw [hrun], ?_, updNode_metadata_index node patch _ hidx,
    fun h => updNode_index_of_chapter node patch n hidx h,
    fun h => updNode_index_of_nonchapter node patch h⟩
  rw [hrun]
  dsimp only
  rw [dictOf_setDict, if_pos rfl, mlookup_minsert, if_pos rfl]

/-- Claim C10, witness: patching the chapter `/v1/a1/p1/c7` of `dEx1`
with `index = 42` updates the stored index and also deposits `index` in
the metadata bag. -/
theorem c10_update_index_into_metadata_witness :
    (updateNodeE dEx1 "/v1/a1/p1/c7" ⟨none, none, none, [("index", JVal.num 42)]⟩).1 = true ∧
    mlookup (dictOf (updateNodeE dEx1 "/v1/a1/p1/c7"
        ⟨none, none, none, [("index", JVal.num 42)]⟩).2.1 NodeType.chapter) "/v1/a1/p1/c7" =
      some (updNode (chapterN "C7" 7) ⟨none, none, none, [("index", JVal.num 42)]⟩) ∧
    rlookup (updNode (chapterN "C7" 7)
        ⟨none, none, none, [("index", JVal.num 42)]⟩).metadata "index" = some (JVal.num 42) ∧
    (updNode (chapterN "C7" 7) ⟨none, none, none, [("index", JVal.num 42)]⟩).index = some 42 := by
  have h := c10_update_index_into_metadata dEx1 "/v1/a1/p1/c7" NodeType.chapter
    (chapterN "C7" 7) ⟨none, none, none, [("index", JVal.num 42)]⟩ 42
    (by decide) (by decide) (by decide)
  exact ⟨h.1, h.2.1, h.2.2.1, h.2.2.2.1 (by decide)⟩

/-- Claim C8.  For a chapter path present in the document, the window
query finds the chapter's position `p` in the index-sorted list and
returns exactly the contiguous slice of sorted-list positions
`[p - w, p + w]` clamped to the list bounds: the result has length
`min (len - 1) (p + w) + 1 - (p - w)` (natural subtraction clamping the
left edge at 0) and its `q`-th element is the sorted list's
`(p - w + q)`-th element.  The window is measured in sorted position, so
gaps between index values cannot widen it. -/
theorem c8_window_clamped_slice (d : OutlineData) (P : String) (w : Nat) (n : OutlineNode)
    (hty : getNodeTypeFromPath P = some NodeType.chapter)
    (hm : mlookup d.chapters P = some n) :
    ∃ p, (getAllChaptersSorted d).findIdx? (fun e => e.1 == P) = some p ∧
      p < (getAllChaptersSorted d).length ∧
      (getChapterWindowByPath d P w).length =
        min ((getAllChaptersSorted d).length - 1) (p + w) + 1 - (p - w) ∧
      ∀ q, q < min ((getAllChaptersSorted d).length - 1) (p + w) + 1 - (p - w) →
        (getChapterWindowByPath d P w)[q]? = (getAllChaptersSorted d)[p - w + q]? := by
  have hmem : (P, n) ∈ getAllChaptersSorted d := by
    unfold getAllChaptersSorted
    exact (List.perm_insertionSort _ _).mem_iff.mpr (mem_of_mlookup_eq_some _ _ _ hm)
  have hfind : (getAllChaptersSorted d).findIdx? (fun e => e.1 == P) =
      some ((getAllChaptersSorted d).findIdx (fun e => e.1 == P)) :=
    List.findIdx?_eq_some_of_exists ⟨(P, n), hmem, by simp⟩
  have hlt : (getAllChaptersSorted d).findIdx (fun e => e.1 == P) <
      (getAllChaptersSorted d).length :=
    (List.findIdx?_eq_some_iff_findIdx_eq.mp hfind).1
  have hwin : getChapterWindowByPath d P w =
      ((getAllChaptersSorted d).drop ((getAllChaptersSorted d).findIdx (fun e => e.1 == P) - w)).take
        (min ((getAllChaptersSorted d).length - 1)
            ((getAllChaptersSorted d).findIdx (fun e => e.1 == P) + w) + 1 -
          ((getAllChaptersSorted d).findIdx (fun e => e.1 == P) - w)) := by
    unfold getChapterWindowByPath
    rw [hty]
    simp only [bne_self_eq_false, Bool.false_eq_true, if_false, hfind]
  refine ⟨_, hfind, hlt, ?_, ?_⟩
  · rw [hwin, List.length_take, List.length_drop]
    omega
  · intro q hq
    rw [hwin, List.getElem?_take, if_pos hq, List.getElem?_drop]

/-- Claim C8, witness: in `dEx8` (sorted chapter indices 1, 3, 5, 9) the
window of size 2 around the first sorted chapter is clamped to sorted
positions 0 through 2. -/
theorem c8_window_clamped_slice_witness :
    (getChapterWindowByPath dEx8 "/v1/a1/p1/c1" 2).length = 3 ∧
    (getChapterWindowByPath dEx8 "/v1/a1/p1/c1" 2).map (fun e => e.1) =
      ["/v1/a1/p1/c1", "/v1/a1/p1/c3", "/v1/a1/p1/c5"] := by
  obtain ⟨p, hp, hlt, hlen, hget⟩ := c8_window_clamped_slice dEx8 "/v1/a1/p1/c1" 2
    (chapterN "C1" 1) (by decide) (by decide)
  have hp0 : p = 0 := by
    have h0 : (getAllChaptersSorted dEx8).findIdx? (fun e => e.1 == "/v1/a1/p1/c1") =
        some 0 := by decide
    exact Option.some.inj (hp.symm.trans h0)
  subst hp0
  exact ⟨hlen.trans (by decide), by decide⟩

/-- Claim C6.  The migration gives volumes, acts and plot points 1-based
positional paths (the key sets of the three mappings are exactly the
positional paths of the nested source), gives each chapter the path
`<plotPointPath>/c{chapter_index}` built from its own declared global
index, and `getAllChaptersSorted` afterwards returns the chapters in
ascending index order; on the concrete source with declared indices
`[5, 3, 9]` the produced paths are `.../c5`, `.../c3`, `.../c9` and the
sorted order is `[3, 5, 9]`. -/
theorem c6_migration_paths_and_order (y : YamlOutline) :
    (∀ x, x ∈ keysOf (migrateData y).volumes ↔
      ∃ i, i < y.length ∧ x = "/v" ++ toString (i + 1)) ∧
    (∀ x, x ∈ keysOf (migrateData y).acts ↔
      ∃ i vol, y[i]? = some vol ∧ ∃ j, j < (vol.acts.getD []).length ∧
        x = "/v" ++ toString (i + 1) ++ "/a" ++ toString (j + 1)) ∧
    (∀ x, x ∈ keysOf (migrateData y).plotPoints ↔
      ∃ i vol, y[i]? = some vol ∧ ∃ j act, (vol.acts.getD [])[j]? = some act ∧
        ∃ k, k < (act.plot_points.getD []).length ∧
          x = "/v" ++ toString (i + 1) ++ "/a" ++ toString (j + 1) ++ "/p" ++
            toString (k + 1)) ∧
    (∀ x, x ∈ keysOf (migrateData y).chapters ↔
      ∃ i vol, y[i]? = some vol ∧ ∃ j act, (vol.acts.getD [])[j]? = some act ∧
        ∃ k pp, (act.plot_points.getD [])[k]? = some pp ∧
          ∃ ch ∈ pp.chapters.getD [],
            x = "/v" ++ toString (i + 1) ++ "/a" ++ toString (j + 1) ++ "/p" ++
              toString (k + 1) ++ "/c" ++ toString ch.chapter_index) ∧
    List.Pairwise (fun a b => chapterKey a ≤ chapterKey b)
      (getAllChaptersSorted (migrateData y)) ∧
    (keysOf (migrateData yEx6).chapters =
        ["/v1/a1/p1/c5", "/v1/a1/p1/c3", "/v1/a1/p1/c9"] ∧
      (getAllChaptersSorted (migrateData yEx6)).map chapterKey = [3, 5, 9]) := by
  refine ⟨?_, ?_, ?_, ?_, ?_, by decide, by decide⟩
  · intro x
    unfold migrateData
    rw [keysOf_migrateVolumes_volumes]
    simp [emptyData, keysOf]
  · intro x
    unfold migrateData
    rw [keysOf_migrateVolumes_acts]
    simp [emptyData, keysOf]
  · intro x
    unfold migrateData
    rw [keysOf_migrateVolumes_plotPoints]
    simp [emptyData, keysOf]
  · intro x
    unfold migrateData
    rw [keysOf_migrateVolumes_chapters]
    simp [emptyData, keysOf]
  · exact List.sorted_insertionSort (fun a b => chapterKey a ≤ chapterKey b)
      (migrateData y).chapters

/-- Claim C6, witness: the chapter declared with index 3 lands at
`/v1/a1/p1/c3` and the volume at `/v1`. -/
theorem c6_migration_paths_and_order_witness :
    "/v1/a1/p1/c3" ∈ keysOf (migrateData yEx6).chapters ∧
    "/v1" ∈ keysOf (migrateData yEx6).volumes := by
  have h := c6_migration_paths_and_order yEx6
  refine ⟨(h.2.2.2.1 "/v1/a1/p1/c3").mpr ?_, (h.1 "/v1").mpr ⟨0, by decide, by decide⟩⟩
  exact ⟨0, yVol6, by decide, 0, yAct6, by decide, 0, yPP6, by decide,
    ⟨"Three", 3, []⟩, by decide, by decide⟩

end Outline
